import Mathlib

/-!
Shallow embedding of `src/main.py`: a car-dealership domain model with
validated entities (`Car`, `Customer`, `SalesContract`), a `CarDealership`
aggregate, and the interactive console menu loop.

Python values supplied to validated setters may be strings, numbers
(int/float, modelled as `ℚ`), or anything else; `ValueError` (the spec's
`InvalidInput`) is modelled as `Except.error` carrying the message string.
The three process-wide `itertools.count(1)` identifier counters are
modelled as an explicit `Counters` record threaded through constructions.
-/

/-- A Python value as far as the validated setters can distinguish them:
a string, a number (`int`/`float`, modelled as `ℚ`), or any other object
(neither `str` nor `int`/`float`). -/
inductive PyValue where
  | str (s : String)
  | num (q : ℚ)
  | other
deriving DecidableEq

/-- `True` exactly when an `Except` is an `error` (the Python call raised). -/
def isErr {α : Type} : Except String α → Bool
  | .error _ => true
  | .ok _ => false

/-- `Car.make` property setter (src/main.py lines 23-29): value must be a
string and non-empty, else `ValueError`. -/
def makeSetter : PyValue → Except String String
  | .str s => if s = "" then .error "Make cannot be empty" else .ok s
  | _ => .error "Make must be a string"

/-- `Car.model` property setter (src/main.py lines 35-41). -/
def modelSetter : PyValue → Except String String
  | .str s => if s = "" then .error "Model cannot be empty" else .ok s
  | _ => .error "Model must be a string"

/-- `Car.price` property setter (src/main.py lines 47-53): value must be an
`int` or `float` and not negative. -/
def priceSetter : PyValue → Except String ℚ
  | .num q => if q < 0 then .error "Price cannot be negative" else .ok q
  | _ => .error "Price must be a number"

/-- `Customer.name` property setter (src/main.py lines 97-103). -/
def nameSetter : PyValue → Except String String
  | .str s => if s = "" then .error "Name cannot be empty" else .ok s
  | _ => .error "Name must be a string"

/-- `Customer.balance` property setter (src/main.py lines 109-115). -/
def balanceSetter : PyValue → Except String ℚ
  | .num q => if q < 0 then .error "Balance cannot be negative" else .ok q
  | _ => .error "Balance must be a number"

/-- The three entity kinds that own a process-wide identifier counter. -/
inductive Entity where
  | car
  | customer
  | contract
deriving DecidableEq

/-- The three process-wide `itertools.count(1)` counters
(`Car._ids`, `Customer._ids`, `SalesContract._ids`): each holds the next
identifier to hand out. -/
structure Counters where
  car : ℕ
  customer : ℕ
  contract : ℕ
deriving DecidableEq

/-- Program start: every counter begins at 1. -/
def countersInit : Counters := ⟨1, 1, 1⟩

/-- The next identifier the counter of kind `k` will hand out. -/
def Counters.get (cs : Counters) : Entity → ℕ
  | .car => cs.car
  | .customer => cs.customer
  | .contract => cs.contract

/-- `next(self._ids)` for kind `k`: yields the current value and advances
that counter only. -/
def Counters.draw (cs : Counters) : Entity → ℕ × Counters
  | .car => (cs.car, { cs with car := cs.car + 1 })
  | .customer => (cs.customer, { cs with customer := cs.customer + 1 })
  | .contract => (cs.contract, { cs with contract := cs.contract + 1 })

/-- A vehicle for sale (`class Car`). -/
structure Car where
  id : ℕ
  make : String
  model : String
  price : ℚ
deriving DecidableEq

/-- `Car.__init__` (src/main.py lines 10-14): draws `self.id` from the
class counter FIRST, then assigns make, model, price through their
validated setters, in that order; a setter failure propagates the
`ValueError` (the drawn identifier is not returned to the counter). -/
def mkCar (cs : Counters) (make model price : PyValue) :
    Except String Car × Counters :=
  let (i, cs') := cs.draw .car
  let result : Except String Car :=
    match makeSetter make with
    | .error e => .error e
    | .ok mk =>
      match modelSetter model with
      | .error e => .error e
      | .ok md =>
        match priceSetter price with
        | .error e => .error e
        | .ok p => .ok { id := i, make := mk, model := md, price := p }
  (result, cs')

/-- The statement `car.make = v` on an existing object: the property setter
validates and either writes the backing attribute or raises before writing,
leaving the object as it was. Returns (outcome of the statement, object
state after it). -/
def Car.setMake (c : Car) (v : PyValue) : Except String Unit × Car :=
  match makeSetter v with
  | .ok s => (.ok (), { c with make := s })
  | .error e => (.error e, c)

/-- The statement `car.model = v` on an existing object. -/
def Car.setModel (c : Car) (v : PyValue) : Except String Unit × Car :=
  match modelSetter v with
  | .ok s => (.ok (), { c with model := s })
  | .error e => (.error e, c)

/-- The statement `car.price = v` on an existing object. -/
def Car.setPrice (c : Car) (v : PyValue) : Except String Unit × Car :=
  match priceSetter v with
  | .ok q => (.ok (), { c with price := q })
  | .error e => (.error e, c)

/-- A buyer (`class Customer`). -/
structure Customer where
  id : ℕ
  name : String
  balance : ℚ
deriving DecidableEq

/-- `Customer.__init__` (src/main.py lines 79-82): draws `self.id` first,
then validates and stores name and balance. -/
def mkCustomer (cs : Counters) (name balance : PyValue) :
    Except String Customer × Counters :=
  let (i, cs') := cs.draw .customer
  let result : Except String Customer :=
    match nameSetter name with
    | .error e => .error e
    | .ok nm =>
      match balanceSetter balance with
      | .error e => .error e
      | .ok b => .ok { id := i, name := nm, balance := b }
  (result, cs')

/-- The statement `customer.name = v` on an existing object. -/
def Customer.setName (c : Customer) (v : PyValue) : Except String Unit × Customer :=
  match nameSetter v with
  | .ok s => (.ok (), { c with name := s })
  | .error e => (.error e, c)

/-- The statement `customer.balance = v` on an existing object. -/
def Customer.setBalance (c : Customer) (v : PyValue) :
    Except String Unit × Customer :=
  match balanceSetter v with
  | .ok q => (.ok (), { c with balance := q })
  | .error e => (.error e, c)

/-- `Customer.buy_car` (src/main.py lines 87-91): if `balance >= price`,
deduct the price and report `True`; else leave the customer untouched and
report `False`. The deduction `self.balance -= car.price` goes through the
validated balance setter, which accepts because the new value is a
non-negative number whenever the guard held. -/
def Customer.buy_car (c : Customer) (car : Car) : Bool × Customer :=
  if car.price ≤ c.balance then
    (true, { c with balance := c.balance - car.price })
  else
    (false, c)

/-- An immutable record of a completed sale (`class SalesContract`);
`date` models the `datetime.now()` timestamp as an abstract clock value. -/
structure SalesContract where
  id : ℕ
  customer : Customer
  car : Car
  date : ℕ
deriving DecidableEq

/-- `SalesContract.__init__` (src/main.py lines 121-125): draws the next
contract identifier, stores the references and the current time; no
validation, always succeeds. -/
def mkContract (cs : Counters) (customer : Customer) (car : Car) (now : ℕ) :
    SalesContract × Counters :=
  let (i, cs') := cs.draw .contract
  ({ id := i, customer := customer, car := car, date := now }, cs')

/-- The dealership aggregate (`class CarDealership`): an ordered inventory. -/
structure CarDealership where
  cars : List Car
deriving DecidableEq

/-- `CarDealership.add_car`: appends to the inventory. -/
def CarDealership.add_car (d : CarDealership) (car : Car) : CarDealership :=
  ⟨d.cars ++ [car]⟩

/-- Everything `CarDealership.sell_car` returns or mutates: the optional
contract, the inventory, the customer (whose balance `buy_car` may have
changed), and the contract counter. -/
structure SellResult where
  contract : Option SalesContract
  dealership : CarDealership
  customer : Customer
  counters : Counters
deriving DecidableEq

/-- `CarDealership.sell_car` (src/main.py lines 67-73): find the first car
in inventory with the given identifier (`next(..., None)`); if found and
`customer.buy_car(car)` succeeds, remove that car from inventory
(`list.remove` deletes the first occurrence), create a `SalesContract`, and
return it; otherwise return `None` with nothing changed. -/
def CarDealership.sell_car (d : CarDealership) (customer : Customer)
    (car_id : ℕ) (cs : Counters) (now : ℕ) : SellResult :=
  match d.cars.find? (fun car => car.id == car_id) with
  | none => ⟨none, d, customer, cs⟩
  | some car =>
    match customer.buy_car car with
    | (true, customer') =>
      let (contract, cs') := mkContract cs customer' car now
      ⟨some contract, ⟨d.cars.erase car⟩, customer', cs'⟩
    | (false, _) => ⟨none, d, customer, cs⟩

/-! ### Construction sequences and the identifier counters

`runCons` replays a sequence of entity constructions (valid or not) from a
given counter state, recording for each construction the kind and the
identifier drawn for it — every `__init__` draws its identifier before any
validation runs. -/

/-- One entity construction as the program can attempt it: the arguments
passed to the corresponding `__init__`. -/
inductive ConsEvent where
  | car (make model price : PyValue)
  | customer (name balance : PyValue)
  | contract (customer : Customer) (theCar : Car) (now : ℕ)
deriving DecidableEq

/-- The counter kind a construction draws from. -/
def ConsEvent.kind : ConsEvent → Entity
  | .car _ _ _ => .car
  | .customer _ _ => .customer
  | .contract _ _ _ => .contract

/-- Replay a list of constructions, threading the counters exactly as the
constructors do, and record `(kind, identifier drawn)` per construction. -/
def runCons (cs : Counters) : List ConsEvent → List (Entity × ℕ)
  | [] => []
  | e :: es =>
    match e with
    | .car mk md p => (.car, cs.car) :: runCons (mkCar cs mk md p).2 es
    | .customer nm b =>
      (.customer, cs.customer) :: runCons (mkCustomer cs nm b).2 es
    | .contract c v n =>
      (.contract, cs.contract) :: runCons (mkContract cs c v n).2 es

/-- The identifiers drawn for constructions of kind `k`, in order. -/
def idsFor (k : Entity) (trace : List (Entity × ℕ)) : List ℕ :=
  (trace.filter (fun p => p.1 == k)).map (fun p => p.2)

/-! ### The interactive console loop (`__main__`, src/main.py lines 210-273)

The loop owns one dealership; the module-level name `customers` is only
created by menu option 4's `if 'customers' not in globals(): customers = []`
(option 3 binds the name `customer`, never `customers`), so the model keeps
a `customersDefined` flag plus the list itself. Uncaught `ValueError` from
a construction terminates the session, modelled as the absent next state. -/

/-- One menu selection together with the inputs the operator would type for
it. Options 1 and 3 read make/model/name via `input()` (always a string,
possibly empty) and price/balance via `float(input())` (a number). -/
inductive MenuAction where
  | addCar (make model : String) (price : ℚ)
  | listCars
  | addCustomer (name : String) (balance : ℚ)
  | listCustomers
  | sellCar (custName : String) (carId : ℕ)
  | exit
  | invalid
deriving DecidableEq

/-- The observable console events a single menu iteration can produce. -/
inductive Out where
  | carAdded
  | carsListed
  | customerAdded
  | customersListed
  | noCustomersMsg
  | promptName
  | noCustomerFound (name : String)
  | soldMsg
  | failedMsg
  | invalidChoice
  | exiting
deriving DecidableEq

/-- The mutable state the loop body can reach between iterations. -/
structure LoopState where
  dealership : CarDealership
  counters : Counters
  customersDefined : Bool
  customers : List Customer
deriving DecidableEq

/-- What one menu iteration did: the next state (`none` when the session
ended, by choosing Exit or by an uncaught exception), the console events,
and whether `dealership.sell_car` was invoked. -/
structure StepOut where
  next : Option LoopState
  outs : List Out
  sellInvoked : Bool
deriving DecidableEq

/-- One iteration of the `while True` menu loop, given the operator's
choice and inputs. Contract timestamps are modelled as 0 (opaque). -/
def menuStep (s : LoopState) : MenuAction → StepOut
  | .addCar mk md p =>
    match mkCar s.counters (.str mk) (.str md) (.num p) with
    | (.ok car, cs') =>
      ⟨some { s with dealership := s.dealership.add_car car, counters := cs' },
        [.carAdded], false⟩
    | (.error _, _) => ⟨none, [], false⟩
  | .listCars => ⟨some s, [.carsListed], false⟩
  | .addCustomer nm b =>
    match mkCustomer s.counters (.str nm) (.num b) with
    | (.ok _, cs') => ⟨some { s with counters := cs' }, [.customerAdded], false⟩
    | (.error _, _) => ⟨none, [], false⟩
  | .listCustomers =>
    let custs := if s.customersDefined then s.customers else []
    ⟨some { s with customersDefined := true, customers := custs },
      [.customersListed], false⟩
  | .sellCar custName carId =>
    if s.customersDefined then
      match s.customers.find? (fun c => c.name == custName) with
      | none => ⟨some s, [.promptName, .noCustomerFound custName], false⟩
      | some cust =>
        let r := s.dealership.sell_car cust carId s.counters 0
        ⟨some { s with dealership := r.dealership, counters := r.counters },
          [.promptName, if r.contract.isSome then .soldMsg else .failedMsg],
          true⟩
    else
      ⟨some s, [.noCustomersMsg], false⟩
  | .exit => ⟨none, [.exiting], false⟩
  | .invalid => ⟨some s, [.invalidChoice], false⟩

/-- Run the loop over a sequence of menu selections; `none` when the
session ended (Exit or uncaught exception) before the list was consumed. -/
def runLoop (s : LoopState) : List MenuAction → Option LoopState
  | [] => some s
  | a :: rest =>
    match (menuStep s a).next with
    | none => none
    | some s' => runLoop s' rest

/-- The loop's state when the menu first appears: empty dealership, the
`customers` global not yet defined. The counters are whatever the startup
test-suite run left behind, so they stay a parameter. -/
def loopInit (cs : Counters) : LoopState := ⟨⟨[]⟩, cs, false, []⟩

/-! ### Helper lemmas -/

/-- A successful construction stores the identifier drawn from the counter
at entry. -/
lemma mkCar_ok_id {cs : Counters} {mk md p : PyValue} {c : Car}
    (h : (mkCar cs mk md p).1 = .ok c) : c.id = cs.car := by
  unfold mkCar Counters.draw at h
  dsimp at h
  rcases hmk : makeSetter mk with e | s <;> rw [hmk] at h
  · exact absurd h (by simp)
  rcases hmd : modelSetter md with e | s' <;> rw [hmd] at h
  · exact absurd h (by simp)
  rcases hp : priceSetter p with e | q <;> rw [hp] at h
  · exact absurd h (by simp)
  cases h
  rfl

/-- Every `Car` construction attempt, valid or not, advances the car
counter by one and leaves the other counters alone. -/
lemma mkCar_counters (cs : Counters) (mk md p : PyValue) :
    (mkCar cs mk md p).2 = { cs with car := cs.car + 1 } := rfl

/-- Every `Customer` construction attempt advances only its own counter. -/
lemma mkCustomer_counters (cs : Counters) (nm b : PyValue) :
    (mkCustomer cs nm b).2 = { cs with customer := cs.customer + 1 } := rfl

/-- Every `SalesContract` construction advances only its own counter. -/
lemma mkContract_counters (cs : Counters) (c : Customer) (v : Car) (n : ℕ) :
    (mkContract cs c v n).2 = { cs with contract := cs.contract + 1 } := rfl

/-- Decomposition of a successful `find?`: the list splits at the first
element satisfying the predicate. -/
lemma find?_decomp {α : Type} {p : α → Bool} :
    ∀ {l : List α} {a : α}, l.find? p = some a →
      ∃ pre post, l = pre ++ a :: post ∧ p a = true ∧ ∀ x ∈ pre, p x = false := by
  intro l
  induction l with
  | nil => intro a h; exact absurd h (by simp)
  | cons b t ih =>
    intro a h
    rcases hb : p b with _ | _
    · rw [List.find?_cons_of_neg _ (by simp [hb])] at h
      obtain ⟨pre, post, hsplit, hpa, hpre⟩ := ih h
      exact ⟨b :: pre, post, by simp [hsplit], hpa, by
        intro x hx
        rcases List.mem_cons.1 hx with rfl | hx
        · exact hb
        · exact hpre x hx⟩
    · rw [List.find?_cons_of_pos _ hb] at h
      cases h
      exact ⟨[], t, rfl, hb, by simp⟩

/-! ### Claims -/

/-- **C1.** With inventory exactly the two freshly constructed cars priced
20000 and 18000 (in that order) and a customer with balance 25000,
`sell_car` on the 20000-priced car's identifier returns a non-absent
contract, leaves an inventory of size 1 holding only the 18000-priced car,
and leaves the customer's balance at 5000. -/
theorem sell_car_success_scenario :
    (mkCar countersInit (.str "Toyota") (.str "Corolla") (.num 20000)).1
        = .ok ⟨1, "Toyota", "Corolla", 20000⟩ ∧
    (mkCar ⟨2, 1, 1⟩ (.str "Honda") (.str "Civic") (.num 18000)).1
        = .ok ⟨2, "Honda", "Civic", 18000⟩ ∧
    (mkCustomer ⟨3, 1, 1⟩ (.str "John Doe") (.num 25000)).1
        = .ok ⟨1, "John Doe", 25000⟩ ∧
    (((CarDealership.mk []).add_car ⟨1, "Toyota", "Corolla", 20000⟩).add_car
        ⟨2, "Honda", "Civic", 18000⟩).cars
      = [⟨1, "Toyota", "Corolla", 20000⟩, ⟨2, "Honda", "Civic", 18000⟩] ∧
    (CarDealership.sell_car
        ⟨[⟨1, "Toyota", "Corolla", 20000⟩, ⟨2, "Honda", "Civic", 18000⟩]⟩
        ⟨1, "John Doe", 25000⟩ 1 ⟨3, 2, 1⟩ 0).contract.isSome = true ∧
    (CarDealership.sell_car
        ⟨[⟨1, "Toyota", "Corolla", 20000⟩, ⟨2, "Honda", "Civic", 18000⟩]⟩
        ⟨1, "John Doe", 25000⟩ 1 ⟨3, 2, 1⟩ 0).dealership.cars
      = [⟨2, "Honda", "Civic", 18000⟩] ∧
    (CarDealership.sell_car
        ⟨[⟨1, "Toyota", "Corolla", 20000⟩, ⟨2, "Honda", "Civic", 18000⟩]⟩
        ⟨1, "John Doe", 25000⟩ 1 ⟨3, 2, 1⟩ 0).customer.balance = 5000 := by
  refine ⟨rfl, rfl, rfl, rfl, by decide, by decide, ?_⟩
  norm_num [CarDealership.sell_car, Customer.buy_car, mkContract,
    Counters.draw, List.find?]

/-- **C3.** `buy_car` returns `True` and deducts the price exactly when the
balance covers the price; otherwise it returns `False` with the balance
untouched; the customer's identifier and name are never modified. -/
theorem buy_car_spec (c : Customer) (car : Car) :
    (car.price ≤ c.balance →
      c.buy_car car = (true, { c with balance := c.balance - car.price })) ∧
    (c.balance < car.price → c.buy_car car = (false, c)) ∧
    (c.buy_car car).2.id = c.id ∧ (c.buy_car car).2.name = c.name := by
  unfold Customer.buy_car
  refine ⟨fun h => by rw [if_pos h], fun h => by rw [if_neg (not_le.2 h)], ?_, ?_⟩ <;>
    split <;> rfl

/-- Witness for `buy_car_spec`: balance 25000 against price 20000 succeeds
leaving 5000; balance 10000 against price 20000 fails leaving 10000. -/
theorem buy_car_spec_witness :
    Customer.buy_car ⟨1, "John Doe", 25000⟩ ⟨1, "Toyota", "Corolla", 20000⟩
        = (true, ⟨1, "John Doe", 25000 - 20000⟩) ∧
    Customer.buy_car ⟨2, "John Doe", 10000⟩ ⟨1, "Toyota", "Corolla", 20000⟩
        = (false, ⟨2, "John Doe", 10000⟩) :=
  ⟨(buy_car_spec ⟨1, "John Doe", 25000⟩ ⟨1, "Toyota", "Corolla", 20000⟩).1
      (by norm_num),
    (buy_car_spec ⟨2, "John Doe", 10000⟩ ⟨1, "Toyota", "Corolla", 20000⟩).2.1
      (by norm_num)⟩

/-- **C5.** Construction with an empty-string make fails for every model
and price; construction with a negative numeric price fails for every make
and model; in both cases the result carries no `Car` value. -/
theorem car_construction_validation :
    (∀ (cs : Counters) (model price : PyValue),
      isErr (mkCar cs (.str "") model price).1 = true) ∧
    (∀ (cs : Counters) (make model : PyValue) (q : ℚ), q < 0 →
      isErr (mkCar cs make model (.num q)).1 = true) := by
  constructor
  · intro cs model price
    simp [mkCar, makeSetter, isErr]
  · intro cs make model q hq
    simp only [mkCar, Counters.draw]
    rcases hmk : makeSetter make with e | s
    · simp [hmk, isErr]
    rcases hmd : modelSetter model with e | s'
    · simp [hmk, hmd, isErr]
    · simp [hmk, hmd, priceSetter, if_pos hq, isErr]

/-- Witness for `car_construction_validation`: make `""` and price
`-10000` each make construction raise. -/
theorem car_construction_validation_witness :
    isErr (mkCar countersInit (.str "") (.str "Corolla") (.num 20000)).1
        = true ∧
    isErr (mkCar countersInit (.str "Toyota") (.str "Corolla")
        (.num (-10000))).1 = true :=
  ⟨car_construction_validation.1 countersInit (.str "Corolla") (.num 20000),
    car_construction_validation.2 countersInit (.str "Toyota") (.str "Corolla")
      (-10000) (by norm_num)⟩

/-- A value the string-valued setters (`make`, `model`, `name`) accept:
a non-empty string. -/
def strOk : PyValue → Bool
  | .str s => s != ""
  | _ => false

/-- A value the numeric setters (`price`, `balance`) accept: a non-negative
number. -/
def numOk : PyValue → Bool
  | .num q => decide (0 ≤ q)
  | _ => false

/-- **C8.** Supplying an invalid value to any validated setter of an
existing entity raises `InvalidInput` and leaves the stored attribute — in
fact the whole entity — exactly as it was. -/
theorem setter_failure_preserves_state (car : Car) (cust : Customer)
    (v : PyValue) :
    (strOk v = false →
      isErr (car.setMake v).1 = true ∧ (car.setMake v).2 = car ∧
      isErr (car.setModel v).1 = true ∧ (car.setModel v).2 = car ∧
      isErr (cust.setName v).1 = true ∧ (cust.setName v).2 = cust) ∧
    (numOk v = false →
      isErr (car.setPrice v).1 = true ∧ (car.setPrice v).2 = car ∧
      isErr (cust.setBalance v).1 = true ∧ (cust.setBalance v).2 = cust) := by
  constructor
  · intro h
    cases v with
    | str s =>
      have hs : s = "" := by simpa [strOk] using h
      subst hs
      simp [Car.setMake, Car.setModel, Customer.setName, makeSetter,
        modelSetter, nameSetter, isErr]
    | num q =>
      simp [Car.setMake, Car.setModel, Customer.setName, makeSetter,
        modelSetter, nameSetter, isErr]
    | other =>
      simp [Car.setMake, Car.setModel, Customer.setName, makeSetter,
        modelSetter, nameSetter, isErr]
  · intro h
    cases v with
    | str s =>
      simp [Car.setPrice, Customer.setBalance, priceSetter, balanceSetter,
        isErr]
    | num q =>
      have hq : q < 0 := by simpa [numOk, not_le] using h
      simp [Car.setPrice, Customer.setBalance, priceSetter, balanceSetter,
        if_pos hq, isErr]
    | other =>
      simp [Car.setPrice, Customer.setBalance, priceSetter, balanceSetter,
        isErr]

/-- Witness for `setter_failure_preserves_state`: a value that is neither
string nor number is rejected by all five setters, entities unchanged. -/
theorem setter_failure_preserves_state_witness :
    (isErr ((Car.mk 1 "Toyota" "Corolla" 20000).setMake .other).1 = true ∧
      ((Car.mk 1 "Toyota" "Corolla" 20000).setMake .other).2
        = Car.mk 1 "Toyota" "Corolla" 20000 ∧
      isErr ((Car.mk 1 "Toyota" "Corolla" 20000).setModel .other).1 = true ∧
      ((Car.mk 1 "Toyota" "Corolla" 20000).setModel .other).2
        = Car.mk 1 "Toyota" "Corolla" 20000 ∧
      isErr ((Customer.mk 1 "John Doe" 25000).setName .other).1 = true ∧
      ((Customer.mk 1 "John Doe" 25000).setName .other).2
        = Customer.mk 1 "John Doe" 25000) ∧
    (isErr ((Car.mk 1 "Toyota" "Corolla" 20000).setPrice .other).1 = true ∧
      ((Car.mk 1 "Toyota" "Corolla" 20000).setPrice .other).2
        = Car.mk 1 "Toyota" "Corolla" 20000 ∧
      isErr ((Customer.mk 1 "John Doe" 25000).setBalance .other).1 = true ∧
      ((Customer.mk 1 "John Doe" 25000).setBalance .other).2
        = Customer.mk 1 "John Doe" 25000) :=
  ⟨(setter_failure_preserves_state (Car.mk 1 "Toyota" "Corolla" 20000)
      (Customer.mk 1 "John Doe" 25000) .other).1 rfl,
    (setter_failure_preserves_state (Car.mk 1 "Toyota" "Corolla" 20000)
      (Customer.mk 1 "John Doe" 25000) .other).2 rfl⟩

/-- A balance the balance setter accepted is non-negative. -/
lemma balanceSetter_nonneg {v : PyValue} {q : ℚ}
    (h : balanceSetter v = .ok q) : 0 ≤ q := by
  cases v with
  | num r =>
    by_cases hr : r < 0
    · simp [balanceSetter, if_pos hr] at h
    · rw [balanceSetter, if_neg hr] at h
      cases h
      exact not_lt.1 hr
  | str s => exact absurd h (by simp [balanceSetter])
  | other => exact absurd h (by simp [balanceSetter])

/-- `buy_car` keeps a non-negative balance non-negative: on success the
guard `price ≤ balance` makes the new balance non-negative, on failure the
balance is untouched. -/
lemma buy_car_nonneg (c : Customer) (car : Car) (h : 0 ≤ c.balance) :
    0 ≤ (c.buy_car car).2.balance := by
  unfold Customer.buy_car
  by_cases hle : car.price ≤ c.balance
  · rw [if_pos hle]
    exact sub_nonneg.2 hle
  · rw [if_neg hle]
    exact h

/-- **C4.** Every operation touching a customer's balance — validated
construction, the balance-assignment statement, `buy_car`, and
`sell_car` — keeps the balance non-negative. -/
theorem balance_invariant :
    (∀ (cs : Counters) (nm b : PyValue) (c : Customer),
      (mkCustomer cs nm b).1 = .ok c → 0 ≤ c.balance) ∧
    (∀ (c : Customer) (v : PyValue), 0 ≤ c.balance →
      0 ≤ (c.setBalance v).2.balance) ∧
    (∀ (c : Customer) (car : Car), 0 ≤ c.balance →
      0 ≤ (c.buy_car car).2.balance) ∧
    (∀ (d : CarDealership) (cust : Customer) (cid : ℕ) (cs : Counters)
      (now : ℕ), 0 ≤ cust.balance →
      0 ≤ (d.sell_car cust cid cs now).customer.balance) := by
  refine ⟨?_, ?_, buy_car_nonneg, ?_⟩
  · intro cs nm b c h
    unfold mkCustomer Counters.draw at h
    dsimp at h
    rcases hnm : nameSetter nm with e | s <;> rw [hnm] at h
    · exact absurd h (by simp)
    rcases hb : balanceSetter b with e | q <;> rw [hb] at h
    · exact absurd h (by simp)
    cases h
    exact balanceSetter_nonneg hb
  · intro c v h
    unfold Customer.setBalance
    rcases hb : balanceSetter v with e | q
    · exact h
    · exact balanceSetter_nonneg hb
  · intro d cust cid cs now h
    unfold CarDealership.sell_car
    rcases hf : d.cars.find? (fun car => car.id == cid) with _ | car
    · rw [hf]
      exact h
    · rw [hf]
      dsimp only
      rcases hbc : cust.buy_car car with ⟨b, c'⟩
      have hc' : c' = (cust.buy_car car).2 := by rw [hbc]
      cases b
      · exact h
      · dsimp only
        rw [hc']
        exact buy_car_nonneg cust car h

/-- Witness for `balance_invariant`: each preservation statement applied at
a concrete customer. -/
theorem balance_invariant_witness :
    0 ≤ (Customer.mk 1 "John Doe" 25000).balance ∧
    0 ≤ ((Customer.mk 1 "John Doe" 25000).setBalance .other).2.balance ∧
    0 ≤ ((Customer.mk 1 "John Doe" 25000).buy_car
      (Car.mk 1 "Toyota" "Corolla" 20000)).2.balance ∧
    0 ≤ ((CarDealership.mk []).sell_car (Customer.mk 1 "John Doe" 25000) 1
      countersInit 0).customer.balance :=
  ⟨balance_invariant.1 countersInit (.str "John Doe") (.num 25000)
      (Customer.mk 1 "John Doe" 25000) rfl,
    balance_invariant.2.1 (Customer.mk 1 "John Doe" 25000) .other
      (by norm_num),
    balance_invariant.2.2.1 (Customer.mk 1 "John Doe" 25000)
      (Car.mk 1 "Toyota" "Corolla" 20000) (by norm_num),
    balance_invariant.2.2.2 (CarDealership.mk [])
      (Customer.mk 1 "John Doe" 25000) 1 countersInit 0 (by norm_num)⟩

/-- **C2.** If no inventory car bears the identifier, or the purchase
attempt on the (first) matching car fails, `sell_car` returns `None` with
the inventory, the customer, and the contract counter untouched; and in
every case either a contract is created together with the removal of
exactly the found car, or neither happens. -/
theorem sell_car_failure_and_atomicity (d : CarDealership) (cust : Customer)
    (cid : ℕ) (cs : Counters) (now : ℕ) :
    (((∀ car ∈ d.cars, car.id ≠ cid) ∨
      (∀ car, d.cars.find? (fun c => c.id == cid) = some car →
        cust.balance < car.price)) →
      (d.sell_car cust cid cs now).contract = none ∧
      (d.sell_car cust cid cs now).dealership = d ∧
      (d.sell_car cust cid cs now).customer = cust ∧
      (d.sell_car cust cid cs now).counters = cs) ∧
    ((∃ car k, d.cars.find? (fun c => c.id == cid) = some car ∧
        (d.sell_car cust cid cs now).contract = some k ∧
        (d.sell_car cust cid cs now).dealership.cars = d.cars.erase car) ∨
      ((d.sell_car cust cid cs now).contract = none ∧
        (d.sell_car cust cid cs now).dealership = d)) := by
  unfold CarDealership.sell_car
  rcases hf : d.cars.find? (fun c => c.id == cid) with _ | car
  · rw [hf]
    exact ⟨fun _ => ⟨rfl, rfl, rfl, rfl⟩, Or.inr ⟨rfl, rfl⟩⟩
  · rw [hf]
    dsimp only
    rcases hbc : cust.buy_car car with ⟨b, c'⟩
    cases b
    · exact ⟨fun _ => ⟨rfl, rfl, rfl, rfl⟩, Or.inr ⟨rfl, rfl⟩⟩
    · constructor
      · intro hfail
        exfalso
        rcases hfail with hno | hpoor
        · exact hno car (List.mem_of_find?_eq_some hf)
            (by simpa using List.find?_some hf)
        · have hlt : cust.balance < car.price := hpoor car rfl
          have : ¬ car.price ≤ cust.balance := not_le.2 hlt
          unfold Customer.buy_car at hbc
          rw [if_neg this] at hbc
          exact absurd hbc (by simp)
      · exact Or.inl ⟨car, (mkContract cs c' car now).1, rfl, rfl, rfl⟩

/-- Witness for `sell_car_failure_and_atomicity`: a dealership holding only
a car with identifier 2 is unchanged by an attempt to sell identifier 1. -/
theorem sell_car_failure_and_atomicity_witness :
    ((CarDealership.mk [Car.mk 2 "Honda" "Civic" 18000]).sell_car
      (Customer.mk 1 "John Doe" 25000) 1 countersInit 0).contract = none ∧
    ((CarDealership.mk [Car.mk 2 "Honda" "Civic" 18000]).sell_car
      (Customer.mk 1 "John Doe" 25000) 1 countersInit 0).dealership
      = CarDealership.mk [Car.mk 2 "Honda" "Civic" 18000] ∧
    ((CarDealership.mk [Car.mk 2 "Honda" "Civic" 18000]).sell_car
      (Customer.mk 1 "John Doe" 25000) 1 countersInit 0).customer
      = Customer.mk 1 "John Doe" 25000 ∧
    ((CarDealership.mk [Car.mk 2 "Honda" "Civic" 18000]).sell_car
      (Customer.mk 1 "John Doe" 25000) 1 countersInit 0).counters
      = countersInit :=
  (sell_car_failure_and_atomicity (CarDealership.mk
      [Car.mk 2 "Honda" "Civic" 18000]) (Customer.mk 1 "John Doe" 25000) 1
      countersInit 0).1
    (Or.inl (by decide))

/-- **C9.** Every `Car` construction attempt, failed ones included, draws
(and so advances) the car counter before validating; hence when a failed
construction sits between two successful ones, the second success gets an
identifier 2 greater than the first — successful identifiers need not be
consecutive. -/
theorem failed_construction_advances_counter :
    (∀ (cs : Counters) (mk md p : PyValue),
      ((mkCar cs mk md p).2).car = cs.car + 1) ∧
    (∀ (cs : Counters) (m1 d1 p1 m2 d2 p2 m3 d3 p3 : PyValue)
      (c1 c3 : Car),
      (mkCar cs m1 d1 p1).1 = .ok c1 →
      isErr (mkCar (mkCar cs m1 d1 p1).2 m2 d2 p2).1 = true →
      (mkCar (mkCar (mkCar cs m1 d1 p1).2 m2 d2 p2).2 m3 d3 p3).1 = .ok c3 →
      c3.id = c1.id + 2) := by
  refine ⟨fun cs mk md p => rfl, ?_⟩
  intro cs m1 d1 p1 m2 d2 p2 m3 d3 p3 c1 c3 h1 _ h3
  have e1 : c1.id = cs.car := mkCar_ok_id h1
  have e3 : c3.id = ((mkCar (mkCar cs m1 d1 p1).2 m2 d2 p2).2).car :=
    mkCar_ok_id h3
  rw [e3, mkCar_counters, mkCar_counters, e1]

/-- Witness for `failed_construction_advances_counter`: a successful
construction, a failed one (empty make), and a successful one yield
identifiers 1 and 3. -/
theorem failed_construction_advances_counter_witness :
    (Car.mk 3 "Honda" "Civic" 18000).id
      = (Car.mk 1 "Toyota" "Corolla" 20000).id + 2 :=
  failed_construction_advances_counter.2 countersInit
    (.str "Toyota") (.str "Corolla") (.num 20000)
    (.str "") (.str "Corolla") (.num 20000)
    (.str "Honda") (.str "Civic") (.num 18000)
    (Car.mk 1 "Toyota" "Corolla" 20000) (Car.mk 3 "Honda" "Civic" 18000)
    rfl rfl rfl

/-- **C10.** Whenever `sell_car` succeeds, exactly one inventory entry is
removed: the first (in insertion order) whose identifier matches, all
entries before it having other identifiers; everything else keeps its
relative order — in particular, duplicate entries of the sold car stay. -/
theorem sell_car_removes_first_occurrence (d : CarDealership)
    (cust : Customer) (cid : ℕ) (cs : Counters) (now : ℕ)
    (k : SalesContract)
    (h : (d.sell_car cust cid cs now).contract = some k) :
    ∃ pre car post, d.cars = pre ++ car :: post ∧ car.id = cid ∧
      (∀ x ∈ pre, x.id ≠ cid) ∧
      (d.sell_car cust cid cs now).dealership.cars = pre ++ post := by
  unfold CarDealership.sell_car at h ⊢
  rcases hf : d.cars.find? (fun c => c.id == cid) with _ | car
  · rw [hf] at h
    exact absurd h (by simp)
  · rw [hf] at h ⊢
    dsimp only at h ⊢
    obtain ⟨pre, post, hsplit, hpa, hpre⟩ := find?_decomp hf
    refine ⟨pre, car, post, hsplit, by simpa using hpa, ?_, ?_⟩
    · intro x hx
      simpa using hpre x hx
    · rcases hbc : cust.buy_car car with ⟨b, c'⟩
      rw [hbc] at h
      cases b
      · exact absurd h (by simp)
      · dsimp only
        have hnotin : car ∉ pre := by
          intro hin
          have h1 := hpre car hin
          rw [hpa] at h1
          exact absurd h1 (by decide)
        rw [hsplit, List.erase_append_right _ hnotin,
          List.erase_cons_head]

/-- Witness for `sell_car_removes_first_occurrence`: the same car object
added twice — a successful sale removes only the first copy. -/
theorem sell_car_removes_first_occurrence_witness :
    ∃ pre car post,
      [Car.mk 1 "Toyota" "Corolla" 20000, Car.mk 1 "Toyota" "Corolla" 20000]
        = pre ++ car :: post ∧ car.id = 1 ∧ (∀ x ∈ pre, x.id ≠ 1) ∧
      ((CarDealership.mk [Car.mk 1 "Toyota" "Corolla" 20000,
          Car.mk 1 "Toyota" "Corolla" 20000]).sell_car
        (Customer.mk 1 "John Doe" 25000) 1 countersInit 0).dealership.cars
        = pre ++ post :=
  sell_car_removes_first_occurrence
    (CarDealership.mk [Car.mk 1 "Toyota" "Corolla" 20000,
      Car.mk 1 "Toyota" "Corolla" 20000])
    (Customer.mk 1 "John Doe" 25000) 1 countersInit 0
    ⟨1, ⟨1, "John Doe", 5000⟩, ⟨1, "Toyota", "Corolla", 20000⟩, 0⟩
    (by norm_num [CarDealership.sell_car, Customer.buy_car, mkContract,
      Counters.draw, countersInit, List.find?])

/-- Replaying constructions from counter state `cs`, the identifiers drawn
for kind `k` are consecutive from `cs.get k`, one per construction of that
kind, whatever the interleaving. -/
lemma runCons_idsFor (es : List ConsEvent) : ∀ (cs : Counters) (k : Entity),
    idsFor k (runCons cs es)
      = List.range' (cs.get k)
          ((es.filter (fun e => e.kind == k)).length) := by
  induction es with
  | nil => intro cs k; rfl
  | cons e es ih =>
    intro cs k
    cases e <;> cases k <;>
      simp [runCons, idsFor, ConsEvent.kind, Counters.get, Counters.draw,
        mkCar_counters, mkCustomer_counters, mkContract_counters,
        List.filter_cons, List.range'_succ, ih, idsFor] <;>
      simpa [idsFor, Counters.get] using ih _ _

/-- **C6.** From program start, any interleaved sequence of constructions
hands each kind identifiers 1, 2, ..., N in construction order (N the
number of constructions of that kind): the three counters are independent,
each starts at 1, and identifiers never repeat; moreover a successful
`Car` construction stores exactly the identifier drawn. -/
theorem counter_independence :
    (∀ (es : List ConsEvent) (k : Entity),
      idsFor k (runCons countersInit es)
        = List.range' 1 ((es.filter (fun e => e.kind == k)).length)) ∧
    (∀ (cs : Counters) (mk md p : PyValue) (c : Car),
      (mkCar cs mk md p).1 = .ok c → c.id = cs.car) := by
  constructor
  · intro es k
    have h := runCons_idsFor es countersInit k
    cases k <;> exact h
  · intro cs mk md p c h
    exact mkCar_ok_id h

/-- Witness for `counter_independence`: a concrete interleaving draws car
identifiers 1, 2 and customer identifier 1; a successful construction at
car counter 7 stores identifier 7. -/
theorem counter_independence_witness :
    idsFor .car (runCons countersInit
      [.car (.str "Toyota") (.str "Corolla") (.num 20000),
        .customer (.str "John Doe") (.num 25000),
        .car (.str "Honda") (.str "Civic") (.num 18000)]) = [1, 2] ∧
    idsFor .customer (runCons countersInit
      [.car (.str "Toyota") (.str "Corolla") (.num 20000),
        .customer (.str "John Doe") (.num 25000),
        .car (.str "Honda") (.str "Civic") (.num 18000)]) = [1] ∧
    (Car.mk 7 "Toyota" "Corolla" 20000).id = (Counters.mk 7 3 2).car :=
  ⟨counter_independence.1
      [.car (.str "Toyota") (.str "Corolla") (.num 20000),
        .customer (.str "John Doe") (.num 25000),
        .car (.str "Honda") (.str "Civic") (.num 18000)] .car,
    counter_independence.1
      [.car (.str "Toyota") (.str "Corolla") (.num 20000),
        .customer (.str "John Doe") (.num 25000),
        .car (.str "Honda") (.str "Civic") (.num 18000)] .customer,
    counter_independence.2 (Counters.mk 7 3 2) (.str "Toyota")
      (.str "Corolla") (.num 20000) (Car.mk 7 "Toyota" "Corolla" 20000) rfl⟩

/-- Only menu option 4 (List All Customers) ever defines the module-level
`customers` name: a session that never selects it keeps the name
undefined. -/
lemma runLoop_customers_undefined :
    ∀ (acts : List MenuAction) (s s' : LoopState),
      s.customersDefined = false → MenuAction.listCustomers ∉ acts →
      runLoop s acts = some s' → s'.customersDefined = false := by
  intro acts
  induction acts with
  | nil =>
    intro s s' hdef _ hrun
    cases hrun
    exact hdef
  | cons a rest ih =>
    intro s s' hdef hmem hrun
    have hmem' : MenuAction.listCustomers ∉ rest :=
      fun hr => hmem (List.mem_cons_of_mem a hr)
    have hane : a ≠ MenuAction.listCustomers :=
      fun ha => hmem (ha ▸ List.mem_cons_self a rest)
    cases a with
    | addCar mk md p =>
      rw [runLoop, menuStep] at hrun
      rcases hmk : mkCar s.counters (.str mk) (.str md) (.num p) with ⟨r, cs'⟩
      rw [hmk] at hrun
      cases r with
      | error e => exact absurd hrun (by simp)
      | ok car =>
        dsimp only at hrun
        refine ih _ _ ?_ hmem' hrun
        exact hdef
    | listCars => exact ih _ _ hdef hmem' hrun
    | addCustomer nm b =>
      rw [runLoop, menuStep] at hrun
      rcases hmk : mkCustomer s.counters (.str nm) (.num b) with ⟨r, cs'⟩
      rw [hmk] at hrun
      cases r with
      | error e => exact absurd hrun (by simp)
      | ok cust =>
        dsimp only at hrun
        refine ih _ _ ?_ hmem' hrun
        exact hdef
    | listCustomers => exact absurd rfl hane
    | sellCar nm cid =>
      rw [runLoop, menuStep, hdef] at hrun
      exact ih _ _ hdef hmem' (by simpa using hrun)
    | exit => exact absurd hrun (by simp [runLoop, menuStep])
    | invalid => exact ih _ _ hdef hmem' hrun

/-- **C7 (amended).** In every console session in which menu option 4
(List All Customers) has not been selected, selecting option 5 (Sell a
Car) reports "No customers available. Please add a customer first." and
aborts: it prompts for no customer name, never invokes
`dealership.sell_car`, and changes no state. -/
theorem sell_menu_aborts_without_customers (cs0 : Counters)
    (acts : List MenuAction) (s : LoopState) (name : String) (cid : ℕ)
    (hrun : runLoop (loopInit cs0) acts = some s)
    (hno4 : MenuAction.listCustomers ∉ acts) :
    (menuStep s (.sellCar name cid)).outs = [Out.noCustomersMsg] ∧
    Out.promptName ∉ (menuStep s (.sellCar name cid)).outs ∧
    (menuStep s (.sellCar name cid)).sellInvoked = false ∧
    (menuStep s (.sellCar name cid)).next = some s := by
  have hdef : s.customersDefined = false :=
    runLoop_customers_undefined acts (loopInit cs0) s rfl hno4 hrun
  rw [menuStep, hdef]
  simp

/-- Witness for `sell_menu_aborts_without_customers`: a session that added
a car and a customer (options 1 and 3) still gets the abort message on
option 5. -/
theorem sell_menu_aborts_without_customers_witness :
    (menuStep (LoopState.mk ⟨[Car.mk 1 "Toyota" "Corolla" 20000]⟩ ⟨2, 2, 1⟩
        false []) (.sellCar "John Doe" 1)).outs = [Out.noCustomersMsg] ∧
    Out.promptName ∉ (menuStep (LoopState.mk
        ⟨[Car.mk 1 "Toyota" "Corolla" 20000]⟩ ⟨2, 2, 1⟩ false [])
        (.sellCar "John Doe" 1)).outs ∧
    (menuStep (LoopState.mk ⟨[Car.mk 1 "Toyota" "Corolla" 20000]⟩ ⟨2, 2, 1⟩
        false []) (.sellCar "John Doe" 1)).sellInvoked = false ∧
    (menuStep (LoopState.mk ⟨[Car.mk 1 "Toyota" "Corolla" 20000]⟩ ⟨2, 2, 1⟩
        false []) (.sellCar "John Doe" 1)).next
      = some (LoopState.mk ⟨[Car.mk 1 "Toyota" "Corolla" 20000]⟩ ⟨2, 2, 1⟩
        false []) :=
  sell_menu_aborts_without_customers countersInit
    [.addCar "Toyota" "Corolla" 20000, .addCustomer "John Doe" 25000]
    (LoopState.mk ⟨[Car.mk 1 "Toyota" "Corolla" 20000]⟩ ⟨2, 2, 1⟩ false [])
    "John Doe" 1 (by decide) (by decide)

/-- **C7 (counterexample to the original claim).** Selecting option 4 and
then option 5: option 5 does not report "No customers available", and it
does prompt for a customer name — the original "regardless of which menu
options were chosen earlier" fails. -/
theorem sell_menu_counterexample :
    runLoop (loopInit countersInit) [MenuAction.listCustomers]
      = some (LoopState.mk ⟨[]⟩ countersInit true []) ∧
    (menuStep (LoopState.mk ⟨[]⟩ countersInit true [])
        (.sellCar "John" 1)).outs
      = [Out.promptName, Out.noCustomerFound "John"] ∧
    Out.noCustomersMsg ∉ (menuStep (LoopState.mk ⟨[]⟩ countersInit true [])
        (.sellCar "John" 1)).outs ∧
    Out.promptName ∈ (menuStep (LoopState.mk ⟨[]⟩ countersInit true [])
        (.sellCar "John" 1)).outs := by
  refine ⟨?_, ?_, ?_, ?_⟩ <;> decide
